import Mathlib

/-
Verification of the `usa` command-line tool (usa.py, usa/shortcuts.py,
usa/settings.py, usa/cli.py) against its natural-language specification.

The Python code is shallowly embedded:
  * Python strings that are inspected character by character are `List Char`;
    strings that are only built and compared whole are `String`.
  * JSON values (as produced by `json.loads` / `tomllib`) are the inductive
    `Json` below.  Dictionary subscription `d[k]` that can raise `KeyError`
    is `jget`, which returns `none` when the key is missing or the value is
    not an object (in Python the latter raises `TypeError`; both abort the
    computation).
  * Network I/O is passed in as an oracle function (endpoint to response);
    each embedded operation additionally returns the list of the calls it
    made, so that "performs no network call" is the trace being `[]`.
  * `sys.stdout.write(msg); sys.exit(1)` is `Except.error ⟨msg, 1⟩`.
-/

/-- JSON values, the results of `json.loads`.  Objects keep insertion order,
as Python dicts do. -/
inductive Json where
  | null
  | bool (b : Bool)
  | num (n : Int)
  | str (s : String)
  | arr (elems : List Json)
  | obj (fields : List (String × Json))

/-- Python `d[k]` on a JSON object: the first value stored under `k`, `none`
when the key is missing (Python: `KeyError`) or the receiver is not a dict
(Python: `TypeError`; both end the surrounding computation). -/
def jget : Json → String → Option Json
  | Json.obj fields, k => fields.lookup k
  | _, _ => none

/-- Filesystem paths, modeled as their normalized component lists; an
absolute path has the anchor "/" as its first component, so
`Path "/a/b" = ["/", "a", "b"]` and its `.parents` are `["/", "a"]` and
`["/"]`: exactly the nonempty proper leading fragments of the component
list. -/
abbrev FsPath := List String

/-- The configuration loaded from `~/.config/usa.toml`: each recognized key
is `none` when absent from the file.  `projects` maps directories to issue-id
lists (usa.py line 258: `config.get("projects")`). -/
structure Config where
  jira_url : Option String
  email : Option String
  api_token : Option String
  projects : Option (List (FsPath × List String))

/-
§ Branch/issue-id parser (usa.py lines 65-70 and usa/shortcuts.py lines
30-35): `re.search(r"^(\D+-\d+)", branch)`.

The pattern is anchored at position 0 (no MULTILINE), so the engine only
runs there.  Its backtracking behaviour: `\D+` first consumes the whole
maximal run of non-digits, then on failure gives characters back one at a
time; after `\D+` has consumed `j` characters the literal `-` must match at
position `j` and `\d+` greedily takes the digits that follow.  `reMatchAt s
j` is that continuation, and `reBacktrack` tries `j` from the maximal
non-digit run length downward. -/

/-- Continuation of the regex `^(\D+-\d+)` once `\D+` has consumed `j`
characters of `s` (the caller guarantees those are non-digits): the literal
`-` must be at position `j`, then `\d+` greedily matches; group 1 is
everything matched. -/
def reMatchAt (s : List Char) (j : Nat) : Option (List Char) :=
  if (s.drop j).head? = some '-' then
    if ((s.drop (j + 1)).takeWhile Char.isDigit).isEmpty then none
    else some (s.take j ++ '-' :: (s.drop (j + 1)).takeWhile Char.isDigit)
  else none

/-- Greedy backtracking for `\D+`: try the longest candidate run first,
giving back one character at a time; `\D+` must consume at least one
character. -/
def reBacktrack (s : List Char) : Nat → Option (List Char)
  | 0 => none
  | j + 1 =>
    match reMatchAt s (j + 1) with
    | some r => some r
    | none => reBacktrack s j

/-- usa.py lines 65-70 (identical in usa/shortcuts.py lines 30-35):
`re.search(r"^(\D+-\d+)", branch)`, returning group 1 on a match and `None`
otherwise. -/
def extract_issue_id (branch : List Char) : Option (List Char) :=
  reBacktrack branch ((branch.takeWhile (fun c => !c.isDigit)).length)

/-
§ General list lemmas used to reason about the regex model.
-/

/-- takeWhile over an append stops exactly at the boundary when every element
of the left part satisfies the predicate and the right part starts with an
element that does not. -/
theorem takeWhile_append_all {q : Char → Bool} {l₁ l₂ : List Char}
    (h₁ : ∀ c ∈ l₁, q c = true) (h₂ : ∀ c, l₂.head? = some c → q c = false) :
    (l₁ ++ l₂).takeWhile q = l₁ := by
  induction l₁ with
  | nil =>
    cases l₂ with
    | nil => rfl
    | cons c t => simp [List.takeWhile_cons, h₂ c rfl]
  | cons a l ih =>
    have ha : q a = true := h₁ a (List.mem_cons_self a l)
    simp only [List.cons_append, List.takeWhile_cons, ha, if_true]
    rw [ih (fun c hc => h₁ c (List.mem_cons_of_mem a hc))]

/-- Every element of `l.takeWhile q` satisfies `q`. -/
theorem pred_of_mem_takeWhile {q : Char → Bool} :
    ∀ (l : List Char) (c : Char), c ∈ l.takeWhile q → q c = true := by
  intro l
  induction l with
  | nil => intro c h; simp [List.takeWhile] at h
  | cons a t ih =>
    intro c h
    rw [List.takeWhile_cons] at h
    cases hqa : q a with
    | false => rw [hqa] at h; simp at h
    | true =>
      rw [hqa] at h
      simp only [if_true] at h
      rcases List.mem_cons.mp h with rfl | h
      · exact hqa
      · exact ih c h

/-- Every element of the first `n` elements satisfies `q` as long as `n` does
not reach past the `takeWhile q` boundary. -/
theorem mem_take_of_le_takeWhile {q : Char → Bool} :
    ∀ (l : List Char) (n : Nat), n ≤ (l.takeWhile q).length →
      ∀ c ∈ l.take n, q c = true := by
  intro l
  induction l with
  | nil => intro n _ c hc; simp at hc
  | cons a t ih =>
    intro n hn c hc
    cases n with
    | zero => simp at hc
    | succ k =>
      cases hqa : q a with
      | false =>
        rw [List.takeWhile_cons, hqa] at hn
        simp at hn
      | true =>
        rw [List.takeWhile_cons, hqa] at hn
        simp only [if_true, List.length_cons, Nat.succ_le_succ_iff] at hn
        rw [List.take_succ_cons] at hc
        rcases List.mem_cons.mp hc with rfl | hc
        · exact hqa
        · exact ih k hn c hc

/-- Dropping the length of the left part of an append yields the right part. -/
theorem drop_len_append (l₁ l₂ : List Char) : (l₁ ++ l₂).drop l₁.length = l₂ := by
  induction l₁ with
  | nil => rfl
  | cons a l ih => simp [ih]

/-- Taking the length of the left part of an append yields the left part. -/
theorem take_len_append (l₁ l₂ : List Char) : (l₁ ++ l₂).take l₁.length = l₁ := by
  induction l₁ with
  | nil => rfl
  | cons a l ih => simp [ih]

/-- A failed longest candidate makes the backtracking engine retry one
character shorter. -/
theorem reBacktrack_succ_of_none {s : List Char} {j : Nat}
    (h : reMatchAt s (j + 1) = none) : reBacktrack s (j + 1) = reBacktrack s j := by
  simp [reBacktrack, h]

/-- A successful candidate is returned by the backtracking engine. -/
theorem reBacktrack_succ_of_some {s r : List Char} {j : Nat}
    (h : reMatchAt s (j + 1) = some r) : reBacktrack s (j + 1) = some r := by
  simp [reBacktrack, h]

/-
§ The two halves of the parser's contract.
-/

/-- On input `p ++ "-" ++ d ++ t` with `p` a nonempty run of non-digits, `d`
a nonempty run of digits and `t` not starting with a digit (so `p` and `d`
are the maximal such runs), the parser returns exactly `p ++ "-" ++ d`. -/
theorem extract_issue_id_pos (p d t : List Char) (hp : p ≠ [])
    (hpn : ∀ c ∈ p, c.isDigit = false) (hd : d ≠ [])
    (hdd : ∀ c ∈ d, c.isDigit = true)
    (ht : ∀ c, t.head? = some c → c.isDigit = false) :
    extract_issue_id (p ++ ['-'] ++ (d ++ t)) = some (p ++ ['-'] ++ d) := by
  obtain ⟨e, d', rfl⟩ : ∃ e d', d = e :: d' := by
    cases d with
    | nil => exact absurd rfl hd
    | cons e d' => exact ⟨e, d', rfl⟩
  have hde : e.isDigit = true := hdd e (List.mem_cons_self e d')
  have hnd1 : ∀ c ∈ p ++ ['-'], (!c.isDigit) = true := by
    intro c hc
    rcases List.mem_append.mp hc with h | h
    · simp [hpn c h]
    · simp at h; subst h; decide
  have hnd2 : ∀ c, ((e :: d') ++ t).head? = some c → (!c.isDigit) = false := by
    intro c hc
    rw [List.cons_append, List.head?_cons] at hc
    cases hc
    simp [hde]
  have hm : ((p ++ ['-'] ++ (e :: d' ++ t)).takeWhile fun c => !c.isDigit)
      = p ++ ['-'] := takeWhile_append_all hnd1 hnd2
  have hlen : (p ++ ['-']).length = p.length + 1 := by simp
  have hdrop1 : (p ++ ['-'] ++ (e :: d' ++ t)).drop (p.length + 1) = e :: d' ++ t := by
    rw [← hlen]; exact drop_len_append _ _
  have hdrop0 : (p ++ ['-'] ++ (e :: d' ++ t)).drop p.length = '-' :: (e :: d' ++ t) := by
    have hs : p ++ ['-'] ++ (e :: d' ++ t) = p ++ ('-' :: (e :: d' ++ t)) := by simp
    rw [hs]
    exact drop_len_append p _
  have htake0 : (p ++ ['-'] ++ (e :: d' ++ t)).take p.length = p := by
    have hs : p ++ ['-'] ++ (e :: d' ++ t) = p ++ ('-' :: (e :: d' ++ t)) := by simp
    rw [hs]
    exact take_len_append p _
  have hds : ((e :: d') ++ t).takeWhile Char.isDigit = e :: d' :=
    takeWhile_append_all hdd ht
  have hM1 : reMatchAt (p ++ ['-'] ++ (e :: d' ++ t)) (p.length + 1) = none := by
    unfold reMatchAt
    rw [if_neg]
    rw [hdrop1, List.cons_append, List.head?_cons]
    intro hcon
    cases hcon
    exact absurd hde (by decide)
  have hM2 : reMatchAt (p ++ ['-'] ++ (e :: d' ++ t)) p.length
      = some (p ++ ['-'] ++ e :: d') := by
    unfold reMatchAt
    rw [hdrop0, hdrop1]
    rw [List.head?_cons, if_pos rfl]
    rw [hds, htake0]
    simp
  unfold extract_issue_id
  rw [hm, hlen, reBacktrack_succ_of_none hM1]
  obtain ⟨a, p', rfl⟩ : ∃ a p', p = a :: p' := by
    cases p with
    | nil => exact absurd rfl hp
    | cons a p' => exact ⟨a, p', rfl⟩
  rw [List.length_cons]
  exact reBacktrack_succ_of_some ((List.length_cons a p') ▸ hM2)

/-- A successful backtracking run starting within the non-digit run exhibits
a prefix of the required shape. -/
theorem reBacktrack_some_decomp {s r : List Char} :
    ∀ n, n ≤ (s.takeWhile fun c => !c.isDigit).length →
      reBacktrack s n = some r →
      ∃ p d : List Char, p ≠ [] ∧ (∀ c ∈ p, c.isDigit = false) ∧ d ≠ [] ∧
        (∀ c ∈ d, c.isDigit = true) ∧ p ++ ['-'] ++ d <+: s := by
  intro n
  induction n with
  | zero => intro _ h; exact absurd h (by simp [reBacktrack])
  | succ j ih =>
    intro hle h
    cases hM : reMatchAt s (j + 1) with
    | none =>
      rw [reBacktrack_succ_of_none hM] at h
      exact ih (Nat.le_of_succ_le hle) h
    | some r' =>
      unfold reMatchAt at hM
      by_cases hhd : (s.drop (j + 1)).head? = some '-'
      · rw [if_pos hhd] at hM
        by_cases hds : ((s.drop (j + 1 + 1)).takeWhile Char.isDigit).isEmpty
        · rw [if_pos hds] at hM; cases hM
        · rw [if_neg hds] at hM
          refine ⟨s.take (j + 1), (s.drop (j + 1 + 1)).takeWhile Char.isDigit,
            ?_, ?_, ?_, ?_, ?_⟩
          · have hlt : j + 1 < s.length := by
              by_contra hge
              rw [List.drop_eq_nil_of_le (Nat.le_of_not_lt hge)] at hhd
              cases hhd
            intro hnil
            have hlen0 : (s.take (j + 1)).length = 0 := by rw [hnil]; rfl
            rw [List.length_take] at hlen0
            omega
          · intro c hc
            have := mem_take_of_le_takeWhile s (j + 1) hle c hc
            simpa using this
          · intro hnil
            rw [hnil] at hds
            exact hds rfl
          · intro c hc
            exact pred_of_mem_takeWhile _ c hc
          · obtain ⟨x, xs, hx⟩ : ∃ x xs, s.drop (j + 1) = x :: xs := by
              cases hsd : s.drop (j + 1) with
              | nil => rw [hsd] at hhd; cases hhd
              | cons x xs => exact ⟨x, xs, rfl⟩
            have hxdash : x = '-' := by
              rw [hx, List.head?_cons] at hhd
              cases hhd
              rfl
            have hxs : s.drop (j + 1 + 1) = xs := by
              have : s.drop (j + 1 + 1) = (s.drop (j + 1)).drop 1 := by
                rw [List.drop_drop, Nat.add_comm]
              rw [this, hx]
              rfl
            refine ⟨(s.drop (j + 1 + 1)).dropWhile Char.isDigit, ?_⟩
            conv_rhs => rw [← List.take_append_drop (j + 1) s]
            rw [List.append_assoc, List.append_assoc,
              List.takeWhile_append_dropWhile, hxs, hx, hxdash]
            rfl
      · rw [if_neg hhd] at hM; cases hM

/-- When no prefix of `branch` has the shape nonempty-non-digits, `-`,
nonempty-digits, the parser reports absence. -/
theorem extract_issue_id_neg (branch : List Char)
    (h : ¬ ∃ p d : List Char, p ≠ [] ∧ (∀ c ∈ p, c.isDigit = false) ∧ d ≠ [] ∧
      (∀ c ∈ d, c.isDigit = true) ∧ p ++ ['-'] ++ d <+: branch) :
    extract_issue_id branch = none := by
  cases hx : extract_issue_id branch with
  | none => rfl
  | some r =>
    unfold extract_issue_id at hx
    exact absurd (reBacktrack_some_decomp _ (Nat.le_refl _) hx) h

/-- C1: for every branch name of the form non-digits, `-`, digits followed by
arbitrary trailing text, `extract_issue_id` returns exactly the leading
non-digits-`-`-digits substring with both runs maximal (the non-digit run
greedy, extending as far as possible while still followed by a hyphen and
digits); writing the branch as `p ++ "-" ++ d ++ t` with `p`, `d` the maximal
runs makes `t` start with a non-digit, and the result is `p ++ "-" ++ d`
(e.g. "PROJ-123-my-feature" yields "PROJ-123").  For every branch name with
no such prefix at the start it returns `none`. -/
theorem C1_extract_issue_id_contract :
    (∀ p d t : List Char, p ≠ [] → (∀ c ∈ p, c.isDigit = false) → d ≠ [] →
      (∀ c ∈ d, c.isDigit = true) → (∀ c, t.head? = some c → c.isDigit = false) →
      extract_issue_id (p ++ ['-'] ++ (d ++ t)) = some (p ++ ['-'] ++ d)) ∧
    (∀ branch : List Char,
      (¬ ∃ p d : List Char, p ≠ [] ∧ (∀ c ∈ p, c.isDigit = false) ∧ d ≠ [] ∧
        (∀ c ∈ d, c.isDigit = true) ∧ p ++ ['-'] ++ d <+: branch) →
      extract_issue_id branch = none) :=
  ⟨extract_issue_id_pos, extract_issue_id_neg⟩

/-- C1 witness: "PROJ-123-my-feature" yields "PROJ-123", and "main" (which
has no non-digits-`-`-digits prefix) yields `none`. -/
theorem C1_extract_issue_id_contract_witness :
    extract_issue_id "PROJ-123-my-feature".toList = some "PROJ-123".toList ∧
    extract_issue_id "main".toList = none := by
  constructor
  · exact C1_extract_issue_id_contract.1 "PROJ".toList "123".toList
      "-my-feature".toList (by decide) (by decide) (by decide) (by decide)
      (by decide)
  · apply C1_extract_issue_id_contract.2
    rintro ⟨p, d, hp, hpn, hd, hdd, u, hu⟩
    have hmem : '-' ∈ p ++ ['-'] ++ d ++ u := by simp
    rw [hu] at hmem
    exact absurd hmem (by decide)

/-
§ Parent-issue resolution (usa.py lines 252-297).
-/

/-- usa.py line 263: `Path(d) in Path(os.getcwd()).parents`.  With paths as
normalized component lists, the parents of `cwd` are its nonempty proper
leading fragments, so the test holds exactly when `d` is nonempty, differs
from `cwd` and is a proper initial segment of `cwd`. -/
def inPathParents (d cwd : FsPath) : Bool :=
  !d.isEmpty && !(d == cwd) && d.isPrefixOf cwd

/-- usa.py lines 252-265, `issues_for_directory`: iterate over the
`[projects]` entries in configuration order (Python dicts preserve insertion
order), concatenating the issue lists of every entry whose directory is a
parent of the current working directory.  A missing or empty `projects`
table (`if not projects`) short-circuits to `[]`. -/
def issues_for_directory (cfg : Config) (cwd : FsPath) : List String :=
  match cfg.projects with
  | none => []
  | some projects =>
    if projects.isEmpty then []
    else projects.foldl
      (fun issues e => if inPathParents e.1 cwd then issues ++ e.2 else issues) []

/-- usa.py lines 276-279: `result["fields"]["parent"]["key"]` inside
`try/except KeyError` returning `None`.  Per the annotation
`-> str | None`, a present key holds a string. -/
def parent_key (result : Json) : Option String :=
  match ((jget result "fields").bind fun f => jget f "parent").bind
      (fun parent => jget parent "key") with
  | some (Json.str k) => some k
  | _ => none

/-- usa.py lines 268-279, `get_parent_issue_id`: one GET to the issue detail
endpoint, then `parent_key` on the response.  The network is the oracle
`api`; the second component is the list of endpoints called. -/
def get_parent_issue_id (issue_id : String) (api : String → Json) :
    Option String × List String :=
  (parent_key (api ("/rest/api/latest/issue/" ++ issue_id)),
   ["/rest/api/latest/issue/" ++ issue_id])

/-- Process termination via `sys.stdout.write(message)` + `sys.exit(code)`. -/
structure FatalExit where
  message : String
  code : Nat

/-- usa.py lines 282-297, `determine_parent_issues`: use the configuration
mapping for the current directory when it yields at least one issue id,
otherwise fall back to one API lookup of the issue's parent; with no parent
there either, write a message and exit 1. -/
def determine_parent_issues (cfg : Config) (cwd : FsPath) (issue_id : String)
    (api : String → Json) : Except FatalExit (List String) × List String :=
  let parent_issues := issues_for_directory cfg cwd
  if parent_issues.length < 1 then
    match get_parent_issue_id issue_id api with
    | (none, calls) =>
      (Except.error ⟨"Could not determine any parent issues.", 1⟩, calls)
    | (some p, calls) => (Except.ok [p], calls)
  else
    (Except.ok parent_issues, [])

/-- The fold in `issues_for_directory` computes the concatenation, in
configuration order, of the issue lists of the matching entries. -/
theorem foldl_issues_eq (cwd : FsPath) :
    ∀ (l : List (FsPath × List String)) (init : List String),
      l.foldl (fun issues e => if inPathParents e.1 cwd then issues ++ e.2
        else issues) init
      = init ++ (l.filter fun e => inPathParents e.1 cwd).foldr
          (fun e acc => e.2 ++ acc) [] := by
  intro l
  induction l with
  | nil => intro init; simp
  | cons e l ih =>
    intro init
    cases he : inPathParents e.1 cwd with
    | false => simp [List.foldl_cons, he, List.filter_cons, ih]
    | true => simp [List.foldl_cons, he, List.filter_cons, ih]

/-- Characterization of `issues_for_directory` on a present `projects`
table: the concatenation, in order, of the matching entries' lists. -/
theorem issues_for_directory_eq (u e a : Option String)
    (ps : List (FsPath × List String)) (cwd : FsPath) :
    issues_for_directory ⟨u, e, a, some ps⟩ cwd
      = (ps.filter fun x => inPathParents x.1 cwd).foldr
          (fun x acc => x.2 ++ acc) [] := by
  cases ps with
  | nil => rfl
  | cons q qs =>
    have h1 : issues_for_directory ⟨u, e, a, some (q :: qs)⟩ cwd
        = List.foldl (fun issues x => if inPathParents x.1 cwd then issues ++ x.2
            else issues) [] (q :: qs) := rfl
    rw [h1, foldl_issues_eq]
    rfl

/-- C2 counterexample: the configuration maps "/home" (a strict ancestor of
the working directory "/home/me") to the empty issue list; the claim then
promises that entry's list back with no network call, but the code falls
through to the API (`len(parent_issues) < 1`), makes one GET and returns the
parent found there instead. -/
theorem C2_counterexample :
    inPathParents ["/", "home"] ["/", "home", "me"] = true ∧
    (determine_parent_issues ⟨none, none, none, some [(["/", "home"], [])]⟩
        ["/", "home", "me"] "X-1"
        (fun _ => Json.obj [("fields", Json.obj [("parent",
          Json.obj [("key", Json.str "PAR-9")])])])).2
      = ["/rest/api/latest/issue/X-1"] ∧
    (determine_parent_issues ⟨none, none, none, some [(["/", "home"], [])]⟩
        ["/", "home", "me"] "X-1"
        (fun _ => Json.obj [("fields", Json.obj [("parent",
          Json.obj [("key", Json.str "PAR-9")])])])).1
      = Except.ok ["PAR-9"] :=
  ⟨rfl, rfl, rfl⟩

/-- C2 (amended): whenever the configured `projects` entries whose directory
is a strict ancestor of the current working directory together contribute at
least one issue id, `determine_parent_issues` returns the concatenation of
the matching entries' lists in configuration order, and performs no network
call (empty call trace). -/
theorem C2_config_mapping_amended (cfg : Config) (cwd : FsPath)
    (issue_id : String) (api : String → Json)
    (ps : List (FsPath × List String)) (hps : cfg.projects = some ps)
    (hne : issues_for_directory cfg cwd ≠ []) :
    determine_parent_issues cfg cwd issue_id api
      = (Except.ok (issues_for_directory cfg cwd), []) ∧
    issues_for_directory cfg cwd
      = (ps.filter fun e => inPathParents e.1 cwd).foldr
          (fun e acc => e.2 ++ acc) [] := by
  have hlen : ¬ (issues_for_directory cfg cwd).length < 1 := by
    cases hi : issues_for_directory cfg cwd with
    | nil => exact absurd hi hne
    | cons x xs => simp
  constructor
  · simp only [determine_parent_issues, if_neg hlen]
  · obtain ⟨u2, e2, a2, pr2⟩ := cfg
    have hpr : pr2 = some ps := hps
    subst hpr
    exact issues_for_directory_eq u2 e2 a2 ps cwd

/-- C2 witness for the amended claim: one matching entry with a non-empty
list comes back verbatim, with an empty call trace. -/
theorem C2_config_mapping_amended_witness :
    determine_parent_issues ⟨none, none, none, some [(["/", "a"], ["X-1"])]⟩
        ["/", "a", "b"] "T-5" (fun _ => Json.null)
      = (Except.ok (issues_for_directory
          ⟨none, none, none, some [(["/", "a"], ["X-1"])]⟩ ["/", "a", "b"]), []) ∧
    issues_for_directory ⟨none, none, none, some [(["/", "a"], ["X-1"])]⟩
        ["/", "a", "b"]
      = ([(["/", "a"], ["X-1"])].filter
          fun e => inPathParents e.1 ["/", "a", "b"]).foldr
          (fun e acc => e.2 ++ acc) [] :=
  C2_config_mapping_amended _ _ "T-5" _ _ rfl (by decide)

/-- C3: when no `projects` entry matches the current working directory,
parent resolution performs exactly one API call, to
`/rest/api/latest/issue/<issueId>`, and returns the response's
`fields.parent.key` as the single parent; when that key path is absent the
operation is fatal with a message and exit code 1. -/
theorem C3_parent_via_api (cfg : Config) (cwd : FsPath) (issue_id : String)
    (api : String → Json)
    (hnm : ∀ ps, cfg.projects = some ps → ∀ e ∈ ps, inPathParents e.1 cwd = false) :
    (determine_parent_issues cfg cwd issue_id api).2
      = ["/rest/api/latest/issue/" ++ issue_id] ∧
    (∀ k, parent_key (api ("/rest/api/latest/issue/" ++ issue_id)) = some k →
      (determine_parent_issues cfg cwd issue_id api).1 = Except.ok [k]) ∧
    (parent_key (api ("/rest/api/latest/issue/" ++ issue_id)) = none →
      (determine_parent_issues cfg cwd issue_id api).1
        = Except.error ⟨"Could not determine any parent issues.", 1⟩) := by
  have hifd : issues_for_directory cfg cwd = [] := by
    obtain ⟨u2, e2, a2, pr2⟩ := cfg
    cases pr2 with
    | none => rfl
    | some ps =>
      rw [issues_for_directory_eq]
      have hf : ps.filter (fun x => inPathParents x.1 cwd) = [] := by
        rw [List.filter_eq_nil_iff]
        intro x hx
        simp [hnm ps rfl x hx]
      rw [hf]
      rfl
  cases hpk : parent_key (api ("/rest/api/latest/issue/" ++ issue_id)) with
  | none =>
    have hD : determine_parent_issues cfg cwd issue_id api
        = (Except.error ⟨"Could not determine any parent issues.", 1⟩,
           ["/rest/api/latest/issue/" ++ issue_id]) := by
      simp [determine_parent_issues, get_parent_issue_id, hifd, hpk]
    refine ⟨by rw [hD], ?_, ?_⟩
    · intro k hk; cases hk
    · intro _; rw [hD]
  | some k0 =>
    have hD : determine_parent_issues cfg cwd issue_id api
        = (Except.ok [k0], ["/rest/api/latest/issue/" ++ issue_id]) := by
      simp [determine_parent_issues, get_parent_issue_id, hifd, hpk]
    refine ⟨by rw [hD], ?_, ?_⟩
    · intro k hk
      injection hk with hk
      subst hk
      rw [hD]
    · intro hnone; cases hnone

/-- C3 witness: with no `projects` table at all, resolving "AB-3" against a
response whose `fields.parent.key` is "EPIC-7" makes exactly the one call to
the issue detail endpoint and returns ["EPIC-7"]. -/
theorem C3_parent_via_api_witness :
    (determine_parent_issues ⟨none, none, none, none⟩ ["/", "w"] "AB-3"
        (fun _ => Json.obj [("fields", Json.obj [("parent",
          Json.obj [("key", Json.str "EPIC-7")])])])).2
      = ["/rest/api/latest/issue/AB-3"] ∧
    (determine_parent_issues ⟨none, none, none, none⟩ ["/", "w"] "AB-3"
        (fun _ => Json.obj [("fields", Json.obj [("parent",
          Json.obj [("key", Json.str "EPIC-7")])])])).1
      = Except.ok ["EPIC-7"] := by
  have h := C3_parent_via_api ⟨none, none, none, none⟩ ["/", "w"] "AB-3"
    (fun _ => Json.obj [("fields", Json.obj [("parent",
      Json.obj [("key", Json.str "EPIC-7")])])]) (fun ps hps => nomatch hps)
  exact ⟨h.1, h.2.1 "EPIC-7" rfl⟩

/-- C9: directory matching is strict.  An entry whose directory equals the
current working directory exactly contributes nothing (dropping it does not
change the result), while an entry whose directory is a nonempty strict
initial segment of the working directory has its list returned. -/
theorem C9_strict_ancestor_matching :
    (∀ (u e a : Option String) (cwd : FsPath) (ids : List String)
        (ps : List (FsPath × List String)),
      issues_for_directory ⟨u, e, a, some ((cwd, ids) :: ps)⟩ cwd
        = issues_for_directory ⟨u, e, a, some ps⟩ cwd) ∧
    (∀ (u e a : Option String) (d cwd : FsPath) (ids : List String),
      d ≠ [] → d ≠ cwd → d <+: cwd →
      issues_for_directory ⟨u, e, a, some [(d, ids)]⟩ cwd = ids) := by
  constructor
  · intro u e a cwd ids ps
    have hself : inPathParents cwd cwd = false := by simp [inPathParents]
    cases ps with
    | nil => simp [issues_for_directory, hself]
    | cons q qs => simp [issues_for_directory, hself]
  · intro u e a d cwd ids hne hneq hpre
    have hin : inPathParents d cwd = true := by
      simp only [inPathParents, Bool.and_eq_true, Bool.not_eq_true']
      refine ⟨⟨?_, ?_⟩, ?_⟩
      · simpa using hne
      · simpa using hneq
      · exact List.isPrefixOf_iff_prefix.mpr hpre
    simp [issues_for_directory, hin]

/-- C9 witness: "/a" is a strict ancestor of "/a/b" and its issue list is
returned; the first half needs no hypotheses. -/
theorem C9_strict_ancestor_matching_witness :
    issues_for_directory ⟨none, none, none, some [(["/", "a"], ["T-1"])]⟩
        ["/", "a", "b"] = ["T-1"] :=
  C9_strict_ancestor_matching.2 none none none ["/", "a"] ["/", "a", "b"]
    ["T-1"] (by decide) (by decide) ⟨["b"], rfl⟩

/-
§ API client (usa.py lines 83-134).
-/

/-- Python exceptions that can leave `JiraAPIClient.__init__`. -/
inductive PyError where
  | keyError (key : String)
  | jiraClientError (message : String)

/-- The constructed client's state (usa.py lines 88-98). -/
structure JiraAPIClient where
  base_url : String
  username : String
  token : String

/-- usa.py lines 88-98, `JiraAPIClient.__init__`: `config["jira_url"]`,
`config["email"]`, `config["api_token"]` in order.  A dict subscript on a
missing key raises `KeyError`; the surrounding handlers say
`except IndexError`, which does not match `KeyError`, so the `KeyError`
propagates uncaught and no `JiraClientError` is ever raised here. -/
def jiraAPIClient_init (cfg : Config) : Except PyError JiraAPIClient :=
  match cfg.jira_url with
  | none => Except.error (PyError.keyError "jira_url")
  | some url =>
    match cfg.email with
    | none => Except.error (PyError.keyError "email")
    | some em =>
      match cfg.api_token with
      | none => Except.error (PyError.keyError "api_token")
      | some tok => Except.ok ⟨url, em, tok⟩

/-- C4: the claim says a missing `jira_url`, `email` or `api_token` makes the
constructor raise `JiraClientError`.  In the code the `except IndexError`
handlers never match the `KeyError` that a dict raises, so what escapes is
the bare `KeyError` — here evaluated on configurations missing each key in
turn (note the result is built with `PyError.keyError`, not
`PyError.jiraClientError`) — while a configuration with all three keys does
construct the client. -/
theorem C4_init_raises_keyError :
    jiraAPIClient_init ⟨none, some "me@x.io", some "tok", none⟩
      = Except.error (PyError.keyError "jira_url") ∧
    jiraAPIClient_init ⟨some "https://x", none, some "tok", none⟩
      = Except.error (PyError.keyError "email") ∧
    jiraAPIClient_init ⟨some "https://x", some "me@x.io", none, none⟩
      = Except.error (PyError.keyError "api_token") ∧
    jiraAPIClient_init ⟨some "https://x", some "me@x.io", some "tok", none⟩
      = Except.ok ⟨"https://x", "me@x.io", "tok"⟩ :=
  ⟨rfl, rfl, rfl, rfl⟩

/-- usa.py lines 106-122, `JiraAPIClient.post_json`: the transport oracle
stands for `urllib.request.urlopen(req, bytes_data)` — `Except.ok body` is
the decoded 2xx response body, `Except.error e` the decoded body of an
`HTTPError`, re-raised as `JiraClientError` (modeled as `Except.error`).
`json_loads` is the `json.loads` oracle.  The code keeps the decoded result
only when `len(body.decode()) > 1`, and otherwise returns `{}`. -/
def post_json (json_loads : List Char → Json)
    (response : Except (List Char) (List Char)) : Except (List Char) Json :=
  match response with
  | Except.error e => Except.error e
  | Except.ok body =>
    if body.length > 1 then Except.ok (json_loads body)
    else Except.ok (Json.obj [])

/-- C5 counterexample: the one-character 2xx body "1" is non-empty and
decodes (as `json.loads` does) to the number 1, yet `post_json` returns the
empty mapping `Json.obj []` because the guard is `len(...) > 1`, not
`len(...) > 0`. -/
theorem C5_counterexample :
    ['1'].length = 1 ∧
    (fun _ : List Char => Json.num 1) ['1'] = Json.num 1 ∧
    post_json (fun _ : List Char => Json.num 1) (Except.ok ['1'])
      = Except.ok (Json.obj []) :=
  ⟨rfl, rfl, rfl⟩

/-- C5 (amended): on a 2xx response `post_json` returns the JSON-decoded
body when the decoded body is at least two characters long, and returns the
empty mapping when it is shorter (the empty body in particular). -/
theorem C5_post_json_amended (json_loads : List Char → Json)
    (body : List Char) :
    (body.length ≤ 1 →
      post_json json_loads (Except.ok body) = Except.ok (Json.obj [])) ∧
    (body.length > 1 →
      post_json json_loads (Except.ok body) = Except.ok (json_loads body)) := by
  constructor
  · intro h
    simp [post_json, Nat.not_lt.mpr h]
  · intro h
    simp [post_json, h]

/-- C5 witness: the empty body maps to the empty mapping, and the two
character body "{}" is decoded. -/
theorem C5_post_json_amended_witness :
    post_json (fun _ => Json.obj []) (Except.ok []) = Except.ok (Json.obj []) ∧
    post_json (fun _ => Json.obj []) (Except.ok ['a', 'b'])
      = Except.ok ((fun _ => Json.obj []) ['a', 'b']) :=
  ⟨(C5_post_json_amended (fun _ => Json.obj []) []).1 (by decide),
   (C5_post_json_amended (fun _ => Json.obj []) ['a', 'b']).2 (by decide)⟩

/-
§ Search (usa.py lines 142-160, 214-249, 300-323).
-/

/-- usa.py lines 142-146, the `Comment` dataclass.  The fields hold whatever
JSON values the response carried (Python does not enforce the `str`
annotations). -/
structure Comment where
  email : Json
  date : Json
  body : Json

/-- usa.py lines 154-160, one element of `parse_comments_response`'s
comprehension: `c["author"]` must exist (else `KeyError`),
`c["author"].get("emailAddress", "")` defaults to the empty string, and
`c["created"]` / `c["body"]` must exist. -/
def parse_comment (c : Json) : Option Comment :=
  match jget c "author" with
  | none => none
  | some author =>
    match jget c "created", jget c "body" with
    | some created, some body =>
      some ⟨(jget author "emailAddress").getD (Json.str ""), created, body⟩
    | _, _ => none

/-- usa.py lines 154-160, `parse_comments_response`: iterate over
`resp["comments"]`. -/
def parse_comments_response (resp : Json) : Option (List Comment) :=
  match jget resp "comments" with
  | some (Json.arr cs) => cs.mapM parse_comment
  | _ => none

/-- usa.py lines 214-221, the `IssueSearch` dataclass. -/
structure IssueSearch where
  id : Json
  summary : Json
  description : Json
  assignee : Json
  status : Json
  comments : List Comment

/-- usa.py lines 233-248, one row of `parse_search_response`: a `None`
assignee becomes the empty string, a present one defaults its
`emailAddress` to "n/a"; the key paths `i["key"]`, `fields.summary`,
`fields.description`, `fields.status.name` and `fields.comment` must all be
present. -/
def parse_issue_row (i : Json) : Option IssueSearch :=
  match jget i "fields" with
  | none => none
  | some fields =>
    match jget fields "assignee" with
    | none => none
    | some assigneeJson =>
      match jget fields "comment" with
      | none => none
      | some commentResp =>
        match parse_comments_response commentResp with
        | none => none
        | some comments =>
          match jget i "key", jget fields "summary", jget fields "description",
              jget fields "status" with
          | some key, some summary, some description, some status =>
            match jget status "name" with
            | none => none
            | some statusName =>
              some ⟨key, summary, description,
                match assigneeJson with
                | Json.null => Json.str ""
                | a => (jget a "emailAddress").getD (Json.str "n/a"),
                statusName, comments⟩
          | _, _, _, _ => none

/-- usa.py lines 231-249, `parse_search_response`: map `parse_issue_row`
over `resp["issues"]`. -/
def parse_search_response (resp : Json) : Option (List IssueSearch) :=
  match jget resp "issues" with
  | some (Json.arr rows) => rows.mapM parse_issue_row
  | _ => none

/-- One POST issued by `do_jql_search` (usa.py lines 300-308): the endpoint
and the payload keys `jql`, `fields`, `maxResults`. -/
structure PostCall where
  endpoint : String
  jql : String
  fields : List String
  maxResults : Nat

/-- usa.py lines 300-309, `do_jql_search`: POST the search payload (fields
list and `maxResults: 100` as written at lines 302-306) to
`/rest/api/latest/search/`, parse the response, and return the parsed rows
reversed (`list(reversed(...))`, line 309).  The oracle `api` is the
transport; the second component is the list of POSTs made. -/
def do_jql_search (api : PostCall → Json) (jql : String) :
    Option (List IssueSearch) × List PostCall :=
  ((parse_search_response (api ⟨"/rest/api/latest/search/", jql,
      ["summary", "description", "status", "assignee", "comment"], 100⟩)).map
    List.reverse,
   [⟨"/rest/api/latest/search/", jql,
      ["summary", "description", "status", "assignee", "comment"], 100⟩])

/-- usa.py lines 312-315, `issues_by_parents`:
`f"parent IN ({",".join(parents)}) order by created DESC"`. -/
def issues_by_parents (api : PostCall → Json) (parents : List String) :
    Option (List IssueSearch) × List PostCall :=
  do_jql_search api
    ("parent IN (" ++ String.intercalate "," parents ++ ") order by created DESC")

/-- C6: listing sibling issues for a non-empty parent list makes exactly one
POST, whose JQL is the comma-joined `parent IN (...) order by created DESC`
string and whose page size is 100, and returns the reversal of the parsed
response rows. -/
theorem C6_issues_by_parents_spec (api : PostCall → Json)
    (parents : List String) (hne : parents ≠ []) :
    (issues_by_parents api parents).2
      = [⟨"/rest/api/latest/search/",
          "parent IN (" ++ String.intercalate "," parents
            ++ ") order by created DESC",
          ["summary", "description", "status", "assignee", "comment"], 100⟩] ∧
    (issues_by_parents api parents).1
      = (parse_search_response (api ⟨"/rest/api/latest/search/",
          "parent IN (" ++ String.intercalate "," parents
            ++ ") order by created DESC",
          ["summary", "description", "status", "assignee", "comment"], 100⟩)).map
        List.reverse :=
  ⟨rfl, rfl⟩

/-- C6 witness: with parents ["A-1", "B-2"] the single POST carries the JQL
string `parent IN (A-1,B-2) order by created DESC` and page size 100, and a
two-row response comes back reversed. -/
theorem C6_issues_by_parents_spec_witness :
    (issues_by_parents (fun _ => Json.obj [("issues", Json.arr [])])
        ["A-1", "B-2"]).2
      = [⟨"/rest/api/latest/search/", "parent IN (A-1,B-2) order by created DESC",
          ["summary", "description", "status", "assignee", "comment"], 100⟩] ∧
    (issues_by_parents (fun _ => Json.obj [("issues", Json.arr [])])
        ["A-1", "B-2"]).1 = some [] := by
  have h := C6_issues_by_parents_spec
    (fun _ => Json.obj [("issues", Json.arr [])]) ["A-1", "B-2"] (by decide)
  refine ⟨?_, ?_⟩
  · rw [h.1]
    rfl
  · rw [h.2]
    rfl

/-
§ Free-text match display (usa.py lines 38, 326-343).
-/

/-- usa.py line 38: the stop-word list, verbatim. -/
def STOP_WORDS : List String := ["all", "just", "being", "over", "both",
  "through", "yourselves", "its", "before", "herself", "had", "should", "to",
  "only", "under", "ours", "has", "do", "them", "his", "very", "they", "not",
  "during", "now", "him", "nor", "did", "this", "she", "each", "further",
  "where", "few", "because", "doing", "some", "are", "our", "ourselves",
  "out", "what", "for", "while", "does", "above", "between", "t", "be", "we",
  "who", "were", "here", "hers", "by", "on", "about", "of", "against", "s",
  "or", "own", "into", "yourself", "down", "your", "from", "her", "their",
  "there", "been", "whom", "too", "themselves", "was", "until", "more",
  "himself", "that", "but", "don", "with", "than", "those", "he", "me",
  "myself", "these", "up", "will", "below", "can", "theirs", "my", "and",
  "then", "is", "am", "it", "an", "as", "itself", "at", "have", "in", "any",
  "if", "again", "no", "when", "same", "how", "other", "which", "you",
  "after", "most", "such", "why", "a", "off", "i", "yours", "so", "the",
  "having", "once"]

/-- A regex word character (`\w`): letter, digit or underscore (the inputs
here are ASCII). -/
def isWordChar (c : Char) : Bool := c.isAlphanum || c == '_'

/-- The traversal behind `re.sub(r"\W+", " ", s)`: each maximal run of
non-word characters is replaced by one space.  `inRun` records whether the
previous character was part of a non-word run already replaced. -/
def subWAux : Bool → List Char → List Char
  | _, [] => []
  | inRun, c :: cs =>
    if isWordChar c then c :: subWAux false cs
    else if inRun then subWAux true cs
    else ' ' :: subWAux true cs

/-- `re.sub(r"\W+", " ", s)` (usa.py line 327). -/
def squashNonWord (l : List Char) : List Char := subWAux false l

/-- Python `str.strip()`: remove leading and trailing whitespace. -/
def pyStrip (l : List Char) : List Char :=
  ((l.dropWhile Char.isWhitespace).reverse.dropWhile Char.isWhitespace).reverse

/-- usa.py lines 326-327, `clean_string`:
`re.sub(r"\W+", " ", string).strip().lower()`. -/
def clean_string (s : List Char) : List Char :=
  (pyStrip (squashNonWord s)).map Char.toLower

/-- usa.py line 331: `set(clean_string(search).split(" ")) - set(STOP_WORDS)`,
with the Python set modeled as the list of retained tokens in order
(`str.split(" ")` keeps empty fragments between adjacent separators, as
`List.splitOn` does). -/
def search_terms (search : List Char) : List (List Char) :=
  ((clean_string search).splitOn ' ').filter
    (fun tk => !(STOP_WORDS.map String.toList).contains tk)

/-- usa.py lines 337-339 and 342: the comprehension
`any([t in clean_string(body) for t in terms if body])` — each term is a
substring test against the cleaned body, and a falsy (empty) body yields an
empty list, hence no match. -/
def section_match (terms : List (List Char)) (body : List Char) : Bool :=
  (terms.filter fun _ => !body.isEmpty).any
    (fun tk => decide (tk <:+: clean_string body))

/-- C7: the search term "the quick fox" retains exactly the tokens "quick"
and "fox" after normalization and stop-word removal; the body
"A quick brown fox jumps" matches (case-insensitive substring after the
same normalization), and "lorem ipsum" does not. -/
theorem C7_search_tokenization :
    search_terms "the quick fox".toList = ["quick".toList, "fox".toList] ∧
    section_match (search_terms "the quick fox".toList)
      "A quick brown fox jumps".toList = true ∧
    section_match (search_terms "the quick fox".toList)
      "lorem ipsum".toList = false :=
  ⟨rfl, rfl, rfl⟩

/-
§ Branch-failure reporting (usa.py lines 393-402, usa/shortcuts.py lines
42-51).
-/

/-- usa.py line 401: the f-string
`f"Could not determine issue from branch name: {branch}"` interpolates the
branch into the message. -/
def main_branch_failure_message (branch : List Char) : List Char :=
  "Could not determine issue from branch name: ".toList ++ branch

/-- usa.py lines 399-402 in `main`: with no `-i` flag the issue id comes
from the branch; on parse failure the interpolated message is written and
the process exits 1. -/
def main_issue_from_branch (branch : List Char) : Except (List Char) (List Char) :=
  match extract_issue_id branch with
  | none => Except.error (main_branch_failure_message branch)
  | some issue_id => Except.ok issue_id

/-- usa/shortcuts.py lines 41-51, `open_current_issue`: the input stands for
the outcome of `git_branch()`.  On parse failure the returned message is the
string literal "Could not determine issue from branch name: \x7bbranch\x7d"
— the source line has no `f` prefix, so `\x7bbranch\x7d` is literal text and
the branch name is not interpolated. -/
def open_current_issue (branch_result : Except String (List Char)) :
    Bool × List Char :=
  match branch_result with
  | Except.error _ =>
    (false, "Could not determine git branch. Are you in a repo?".toList)
  | Except.ok branch =>
    match extract_issue_id branch with
    | none =>
      (false, "Could not determine issue from branch name: \x7bbranch\x7d".toList)
    | some _ => (true, "success".toList)

/-- C8: the claim says every code path reports a branch-parse failure with a
message containing the offending branch name.  The `main` path does (first
two conjuncts, branch "main"), but the `open_current_issue` shortcut path
returns a message in which the branch name does not occur (the un-prefixed
f-string leaves the literal text between braces), so the claim fails there. -/
theorem C8_branch_name_in_message :
    main_issue_from_branch "main".toList
      = Except.error ("Could not determine issue from branch name: main".toList) ∧
    "main".toList <:+: main_branch_failure_message "main".toList ∧
    (open_current_issue (Except.ok "main".toList)).1 = false ∧
    decide ("main".toList <:+: (open_current_issue (Except.ok "main".toList)).2)
      = false := by
  refine ⟨rfl, ?_, rfl, by decide⟩
  exact ⟨"Could not determine issue from branch name: ".toList, [], by decide⟩

/-
§ Command dispatch (usa.py lines 351-452).
-/

/-- The parsed argparse namespace (usa.py lines 351-385): store-true flags
are `Bool`, value flags are `Option String` (`none` when not given). -/
structure Args where
  issue : Option String
  comment : Option String
  list_comments : Bool
  open_flag : Bool
  transition : Bool
  list_issues : Bool
  plain : Bool
  search : Option String
  restrict : Bool

/-- Python truthiness of an optional string: `None` and `""` are falsy. -/
def pyTruthy : Option String → Bool
  | none => false
  | some s => !s.isEmpty

/-- The externally visible actions `main` can dispatch (usa.py lines
406-452), in source order. -/
inductive CliAction where
  | add_comment (issue body : String)
  | list_comments (issue : String)
  | transition_flow (issue : String)
  | list_issues_flow (issue : String)
  | open_issue (issue : String)
  | search_flow (term : String) (restrict : Bool)

/-- Whether an action is the posting of a comment. -/
def isAddComment : CliAction → Bool
  | CliAction.add_comment _ _ => true
  | _ => false

/-- Whether an action is a free-form search. -/
def isSearchFlow : CliAction → Bool
  | CliAction.search_flow _ _ => true
  | _ => false

/-- usa.py lines 406-452: the fixed dispatch sequence of `main` once the
issue id is known — `if args.comment:` / `if args.list_comments:` /
`if args.transition:` / `if args.list_issues:` / `if args.open:` /
`if args.search:` in that order, each independent.  The result is the list
of dispatched actions. -/
def main_actions (args : Args) (issue_id : String) : List CliAction :=
  (if pyTruthy args.comment
    then [CliAction.add_comment issue_id (args.comment.getD "")] else []) ++
  (if args.list_comments then [CliAction.list_comments issue_id] else []) ++
  (if args.transition then [CliAction.transition_flow issue_id] else []) ++
  (if args.list_issues then [CliAction.list_issues_flow issue_id] else []) ++
  (if args.open_flag then [CliAction.open_issue issue_id] else []) ++
  (if pyTruthy args.search
    then [CliAction.search_flow (args.search.getD "") args.restrict] else [])

/-- C10: supplying `-c` or `-s` with an empty-string argument dispatches
exactly as if the flag were absent — the empty string is falsy, so the
gated action never runs (no comment posted, no search performed). -/
theorem C10_empty_flag_skipped :
    (∀ (args : Args) (issue_id : String),
      main_actions { args with comment := some "" } issue_id
        = main_actions { args with comment := none } issue_id) ∧
    (∀ (args : Args) (issue_id : String),
      main_actions { args with search := some "" } issue_id
        = main_actions { args with search := none } issue_id) ∧
    (∀ (args : Args) (issue_id : String),
      (main_actions { args with comment := some "" } issue_id).all
        (fun a => !isAddComment a) = true) ∧
    (∀ (args : Args) (issue_id : String),
      (main_actions { args with search := some "" } issue_id).all
        (fun a => !isSearchFlow a) = true) := by
  refine ⟨fun args issue_id => rfl, fun args issue_id => rfl, ?_, ?_⟩
  · intro args issue_id
    obtain ⟨i, c, lc, o, t, li, pl, s, r⟩ := args
    simp only [main_actions, List.all_append]
    cases lc <;> cases o <;> cases t <;> cases li <;>
      cases hs : pyTruthy s <;> simp [isAddComment, pyTruthy] <;> decide
  · intro args issue_id
    obtain ⟨i, c, lc, o, t, li, pl, s, r⟩ := args
    simp only [main_actions, List.all_append]
    cases lc <;> cases o <;> cases t <;> cases li <;>
      cases hc : pyTruthy c <;> simp [isSearchFlow, pyTruthy] <;> decide
